import Mathlib

set_option maxRecDepth 10000

/-!
Shallow embedding of the txtdirect core: the TXT-directive parser
(`ParseRecord`), the DNS zone resolver (`GetRecord` / `query` /
`absoluteZone`), the upstream chain resolver (`UpstreamRecord`) and the
redirect dispatcher (`Redirect` / `isIP` / `getBaseTarget`).

External collaborators (Go standard library lookups, the placeholder
expander, the fallback writer, the proxy / dockerv2 / gometa / gomods
handlers) are modelled as explicit oracle parameters or as effect-trace
entries; everything the repository itself computes is translated
directly from the Go source.
-/

namespace Txtdirect

/-! ### Go standard-library helpers

Character-level models of the `strings`, `strconv` and `net/url`
functions the source calls.  Go's `len` counts bytes, so segment
lengths are measured with `String.utf8ByteSize`. -/

/-- `isPrefOf p s` models the list-level core of `strings.HasPrefix s p`. -/
def isPrefOf : List Char → List Char → Bool
  | [], _ => true
  | _ :: _, [] => false
  | a :: as, b :: bs => a = b && isPrefOf as bs

/-- List-level core of `strings.Contains`. -/
def containsSub (p : List Char) : List Char → Bool
  | [] => p.isEmpty
  | c :: t => isPrefOf p (c :: t) || containsSub p t

/-- `strings.Contains s sub`. -/
def goContains (s sub : String) : Bool :=
  containsSub sub.data s.data

/-- `strings.HasPrefix s p`. -/
def goHasPref (s p : String) : Bool :=
  isPrefOf p.data s.data

/-- `strings.HasSuffix s p`. -/
def goHasSuffix (s p : String) : Bool :=
  isPrefOf p.data.reverse s.data.reverse

/-- `strings.TrimPrefix`, specialised to the call sites where the key
is already known to be a prefix: drop its characters. -/
def goDrop (s : String) (n : Nat) : String :=
  ⟨s.data.drop n⟩

/-- Character-level core of `strings.Split` for a one-character
separator (every separator the source splits on is one character). -/
def splitOnChar (c : Char) : List Char → List (List Char)
  | [] => [[]]
  | a :: t =>
    let r := splitOnChar c t
    if a = c then [] :: r
    else
      match r with
      | [] => [[a]]
      | h :: t' => (a :: h) :: t'

/-- `strings.Split s sep` for a one-character separator. -/
def goSplit (s : String) (c : Char) : List String :=
  (splitOnChar c s.data).map fun l => ⟨l⟩

/-- `strings.Join` with a one-character separator. -/
def joinSep (c : Char) : List String → String
  | [] => ""
  | [s] => s
  | s :: t => s ++ String.singleton c ++ joinSep c t

/-- The ASCII part of `unicode.IsSpace`, as used by
`strings.TrimSpace`.  (Non-ASCII Unicode spaces are not modelled; no
string in this development contains one.) -/
def isGoSpace (c : Char) : Bool :=
  c = ' ' ∨ c = '\t' ∨ c = '\n' ∨ c = '\r' ∨ c = '\x0b' ∨ c = '\x0c'

/-- `strings.TrimSpace`. -/
def trimSpace (s : String) : String :=
  ⟨((s.data.dropWhile isGoSpace).reverse.dropWhile isGoSpace).reverse⟩

/-- `strconv.Atoi`.  Accepts an optional sign followed by decimal
digits.  (The 64-bit range check is omitted; no value in this
development approaches it.) -/
def goAtoi (s : String) : Option Int :=
  match s.data with
  | [] => none
  | c :: rest =>
    let neg := c = '-'
    let digits := if c = '-' ∨ c = '+' then rest else c :: rest
    if digits = [] then none
    else if digits.all Char.isDigit then
      let n : Nat := digits.foldl (fun a d => a * 10 + (d.toNat - 48)) 0
      some (if neg then -(n : Int) else (n : Int))
    else none

/-- `strconv.ParseBool`: the exact set of literals Go accepts. -/
def goParseBool (s : String) : Option Bool :=
  if s = "1" ∨ s = "t" ∨ s = "T" ∨ s = "TRUE" ∨ s = "true" ∨ s = "True" then some true
  else if s = "0" ∨ s = "f" ∨ s = "F" ∨ s = "FALSE" ∨ s = "false" ∨ s = "False" then
    some false
  else none

/-- Value of a hexadecimal digit, as in `net/url`'s unhex. -/
def hexVal (c : Char) : Option Nat :=
  if '0' ≤ c ∧ c ≤ '9' then some (c.toNat - 48)
  else if 'a' ≤ c ∧ c ≤ 'f' then some (c.toNat - 87)
  else if 'A' ≤ c ∧ c ≤ 'F' then some (c.toNat - 55)
  else none

/-- Character-level core of `url.PathUnescape`: each `%XX` becomes the
byte `XX`; a `%` not followed by two hex digits is an error.  (Escaped
multi-byte UTF-8 sequences are decoded byte-per-character, which is
faithful for everything in this development.) -/
def unescapeChars : List Char → Option (List Char)
  | [] => some []
  | '%' :: a :: b :: rest => do
    let x ← hexVal a
    let y ← hexVal b
    let r ← unescapeChars rest
    pure (Char.ofNat (16 * x + y) :: r)
  | '%' :: _ => none
  | c :: rest => do
    let r ← unescapeChars rest
    pure (c :: r)

/-- `url.PathUnescape`. -/
def pathUnescape (s : String) : Option String :=
  (unescapeChars s.data).map fun cs => ⟨cs⟩

/-! ### Data model -/

/-- `Record` from record.go: the resolved directive set.  Go's
`map[string]string` for `Headers` is modelled as an association list
updated with overwrite-on-existing-key semantics. -/
structure Record where
  Version : String := ""
  To : String := ""
  Code : Int := 0
  «Type» : String := ""
  Use : List String := []
  Vcs : String := ""
  Website : String := ""
  From : String := ""
  Root : String := ""
  Re : String := ""
  Ref : Bool := false
  Headers : List (String × String) := []
  deriving DecidableEq, Repr

/-- `Config` from the middleware (the fields the core reads). -/
structure Config where
  Enable : List String := []
  Redirect : String := ""
  Resolver : String := ""
  deriving DecidableEq, Repr

/-- `contains` from the dispatcher source: linear scan of a string slice. -/
def contains (array : List String) (word : String) : Bool :=
  match array with
  | [] => false
  | w :: ws => if w = word then true else contains ws word

/-- Observable side effects on the HTTP response / network, recorded in
order: response-header writes, fallback-policy invocations, redirect
writes, and DNS TXT queries (absolute zone form). -/
inductive Effect where
  | setHeader (name val : String)
  | addHeader (name val : String)
  | fallbackCall (mode : String) (code : Int)
  | httpRedirect (target : String) (code : Int)
  | dnsQuery (zone : String)
  deriving DecidableEq, Repr

/-- `http.StatusMovedPermanently`. -/
def statusMovedPermanently : Int := 301

/-- `http.StatusFound`. -/
def statusFound : Int := 302

/-- `status301CacheAge` from the dispatcher source. -/
def status301CacheAge : Nat := 604800

/-- `basezone` from the dispatcher source. -/
def basezone : String := "_redirect"

/-! ### Directive parser (`ParseRecord`, record.go)

Two external collaborators appear as oracles: `expand` is
`parsePlaceholders` (`none` models its error return) and `uparse` is
`url.Parse` composed with `URL.String` (`none` models a parse error).
A Go runtime panic is a distinguished outcome (`panicked`), never an
error value. -/

/-- Result of `ParseRecord`: a record with a nil error, an error with
the zero record, or a runtime panic. -/
inductive ParseOut where
  | ok (r : Record)
  | err (msg : String)
  | panicked
  deriving DecidableEq, Repr

/-- One iteration of `ParseRecord`'s segment loop: either continue with
an updated record or stop the whole parse. -/
inductive StepRes where
  | cont (r : Record) (eff : List Effect)
  | stop (out : ParseOut) (eff : List Effect)
  deriving DecidableEq, Repr

/-- Go map-style insert for `r.Headers[k] = v`: overwrite the entry if
the key exists, append otherwise. -/
def insertHeader : List (String × String) → String → String → List (String × String)
  | [], k, v => [(k, v)]
  | (k', v') :: t, k, v =>
    if k' = k then (k, v) :: t else (k', v') :: insertHeader t k v

/-- The body of `ParseRecord`'s `for _, l := range s` loop: the prefix
switch followed by the 255-byte length check.  The string the length
check sees differs per case exactly as in the Go scoping: for most keys
it is the value after the key is stripped (for `from=`/`root=`/`to=`
before placeholder expansion, because `l, err := parsePlaceholders(...)`
shadows the loop variable); for `ref=` and `>` headers it is the whole
raw segment (the case body only declares shadowed variables); for
`website=` it is the `ParseURI` output (assigned with `=`); the default
case `continue`s past the check (see `parseStep`). -/
def lenCheck (r' : Record) (chk : String) (eff : List Effect) : StepRes :=
  if chk.utf8ByteSize > 255 then
    .stop (.err "TXT record cannot exceed the maximum of 255 characters") eff
  else .cont r' eff

/-- The `code=` case of the segment switch. -/
def caseCode (r : Record) (l : String) : StepRes :=
  match goAtoi (goDrop l 5) with
  | none => .stop (.err "could not parse status code") []
  | some i => lenCheck { r with Code := i } (goDrop l 5) []

/-- The `from=` case: the value runs through the placeholder
expander. -/
def caseFrom (expand : String → Option String) (r : Record) (l : String) : StepRes :=
  match expand (goDrop l 5) with
  | none => .stop (.err "could not parse placeholders") []
  | some w => lenCheck { r with From := w } (goDrop l 5) []

/-- The `re=` case. -/
def caseRe (r : Record) (l : String) : StepRes :=
  lenCheck { r with Re := goDrop l 3 } (goDrop l 3) []

/-- The `ref=` case: a malformed boolean triggers the global fallback
and fails; note the length check sees the whole raw segment (the case
body only declares a shadowing variable). -/
def caseRef (r : Record) (l : String) : StepRes :=
  match goParseBool (goDrop l 4) with
  | none => .stop (.err "could not parse bool") [.fallbackCall "global" statusMovedPermanently]
  | some b => lenCheck { r with Ref := b } l []

/-- The `root=` case: placeholder expansion then `ParseURI`, whose
failure triggers the global fallback and stores the empty string. -/
def caseRoot (expand uparse : String → Option String) (r : Record) (l : String) : StepRes :=
  match expand (goDrop l 5) with
  | none => .stop (.err "could not parse placeholders") []
  | some w =>
    match uparse w with
    | none =>
      lenCheck { r with Root := "" } (goDrop l 5) [.fallbackCall "global" statusMovedPermanently]
    | some u => lenCheck { r with Root := u } (goDrop l 5) []

/-- The `to=` case: same shape as `root=`. -/
def caseTo (expand uparse : String → Option String) (r : Record) (l : String) : StepRes :=
  match expand (goDrop l 3) with
  | none => .stop (.err "could not parse placeholders") []
  | some w =>
    match uparse w with
    | none =>
      lenCheck { r with To := "" } (goDrop l 3) [.fallbackCall "global" statusMovedPermanently]
    | some u => lenCheck { r with To := u } (goDrop l 3) []

/-- The `type=` case. -/
def caseType (r : Record) (l : String) : StepRes :=
  lenCheck { r with «Type» := goDrop l 5 } (goDrop l 5) []

/-- The `use=` case: the zone must carry the `_redirect.` marker. -/
def caseUse (r : Record) (l : String) : StepRes :=
  if goHasPref (goDrop l 4) "_redirect." then
    lenCheck { r with Use := r.Use ++ [goDrop l 4] } (goDrop l 4) []
  else .stop (.err "The given zone address is invalid") []

/-- The `v=` case: only the literal `txtv0` is accepted. -/
def caseV (r : Record) (l : String) : StepRes :=
  if goDrop l 2 = "txtv0" then lenCheck { r with Version := goDrop l 2 } (goDrop l 2) []
  else .stop (.err ("unhandled version " ++ goDrop l 2)) []

/-- The `vcs=` case. -/
def caseVcs (r : Record) (l : String) : StepRes :=
  lenCheck { r with Vcs := goDrop l 4 } (goDrop l 4) []

/-- The `website=` case: `ParseURI` only; the length check sees the
parsed URI (the case assigns the loop variable with `=`). -/
def caseWebsite (uparse : String → Option String) (r : Record) (l : String) : StepRes :=
  match uparse (goDrop l 8) with
  | none => lenCheck { r with Website := "" } "" [.fallbackCall "global" statusMovedPermanently]
  | some u => lenCheck { r with Website := u } u []

/-- The `>` header case: `header := strings.Split(l, "=")` followed by
an unguarded `header[1]` — a missing value component is a runtime
panic.  The value is percent-decoded and stored under the key with the
`>` stripped. -/
def caseHeader (r : Record) (l : String) : StepRes :=
  match goSplit l '=' with
  | k :: val :: _ =>
    match pathUnescape val with
    | none => .stop (.err "invalid URL escape") []
    | some h => lenCheck { r with Headers := insertHeader r.Headers (goDrop k 1) h } l []
  | _ => .stop .panicked []

/-- The default case: a segment with exactly one `=` is silently
ignored (`continue`, skipping the length check); anything else is a
hard error. -/
def caseDefault (r : Record) (l : String) : StepRes :=
  if (goSplit l '=').length ≠ 2 then .stop (.err "arbitrary data not allowed") []
  else .cont r []

/-- The body of `ParseRecord`'s `for _, l := range s` loop: the prefix
switch, cases tested in source order. -/
def parseStep (expand uparse : String → Option String) (r : Record) (l : String) :
    StepRes :=
  if goHasPref l "code=" then caseCode r l
  else if goHasPref l "from=" then caseFrom expand r l
  else if goHasPref l "re=" then caseRe r l
  else if goHasPref l "ref=" then caseRef r l
  else if goHasPref l "root=" then caseRoot expand uparse r l
  else if goHasPref l "to=" then caseTo expand uparse r l
  else if goHasPref l "type=" then caseType r l
  else if goHasPref l "use=" then caseUse r l
  else if goHasPref l "v=" then caseV r l
  else if goHasPref l "vcs=" then caseVcs r l
  else if goHasPref l "website=" then caseWebsite uparse r l
  else if goHasPref l ">" then caseHeader r l
  else caseDefault r l

/-- `ParseRecord`'s segment loop over the already-split-and-trimmed
segments. -/
def parseSegs (expand uparse : String → Option String) :
    Record → List String → ParseOut × List Effect
  | r, [] => (.ok r, [])
  | r, l :: ls =>
    match parseStep expand uparse r l with
    | .stop out eff => (out, eff)
    | .cont r' eff =>
      let (out, eff') := parseSegs expand uparse r' ls
      (out, eff ++ eff')

/-- The host-without-to rule and the enabled-types check: the last two
post-parse validations, reached only when `Use` is empty. -/
def postHost (c : Config) (r : Record) (eff : List Effect) : ParseOut × List Effect :=
  if r.«Type» = "host" ∧ r.To = "" then
    (.ok {}, eff ++ [.fallbackCall "global" statusMovedPermanently])
  else if ¬ contains c.Enable r.«Type» then
    (.err (r.«Type» ++ " type is not enabled in configuration"), eff)
  else (.ok r, eff)

/-- The `len(r.Use) == 0` gate: only a record that does not point to an
upstream record gets the type default and the `postHost` checks. -/
def postEnable (c : Config) (r : Record) (eff : List Effect) : ParseOut × List Effect :=
  if r.Use = [] then
    postHost c (if r.«Type» = "" then { r with «Type» := "host" } else r) eff
  else (.ok r, eff)

/-- `ParseRecord`'s post-parse normalisation: dockerv2 requires `to=`,
the code defaults to `http.StatusFound`, then the `Use` gate. -/
def postValidate (c : Config) (r : Record) (eff : List Effect) : ParseOut × List Effect :=
  if r.«Type» = "dockerv2" ∧ r.To = "" then
    (.err "to= field is required in dockerv2 type", eff)
  else postEnable c (if r.Code = 0 then { r with Code := statusFound } else r) eff

/-- `ParseRecord` (record.go): split on `;`, trim each segment, run the
segment loop, then post-validate. -/
def ParseRecord (expand uparse : String → Option String) (c : Config) (str : String) :
    ParseOut × List Effect :=
  match parseSegs expand uparse {} ((goSplit str ';').map trimSpace) with
  | (.ok r, eff) => postValidate c r eff
  | out => out

/-! ### Zone resolver (`GetRecord`, record.go)

`net.LookupTXT` is the oracle `lookup : String → Option (List String)`
(`none` models a lookup error), keyed by the absolute zone name.  The
`records` request-context value is the flag `recordsInCtx`.  Each DNS
query is recorded as a `dnsQuery` effect carrying the absolute zone. -/

/-- `absoluteZone` (record.go): strip a port, prepend `_redirect.` when
missing, and terminate with a dot. -/
def absoluteZone (zone : String) : String :=
  let zone := if goContains zone ":" then (goSplit zone ':').headD "" else zone
  let zone := if goHasPref zone basezone then zone else basezone ++ "." ++ zone
  if goHasSuffix zone "." then zone else zone ++ "."

/-- Result of one `query` call. `qpanic` models the `txts[0]` index on
an empty answer slice. -/
inductive QRes where
  | ok (txts : List String)
  | qerr (msg : String)
  | qpanic
  deriving DecidableEq, Repr

/-- `query` (record.go): look up the absolute zone and reject an empty
first string. -/
def query (lookup : String → Option (List String)) (zone : String) : QRes :=
  match lookup (absoluteZone zone) with
  | none => .qerr "could not get TXT record"
  | some [] => .qpanic
  | some (t :: ts) =>
    if t = "" then .qerr "TXT record doesn't exist or is empty" else .ok (t :: ts)

/-- The broad-wildcard host: the leftmost dot-label replaced by `_`
(`hostSlice[0] = "_"` in the source). -/
def broadWildcard (host : String) : String :=
  match goSplit host '.' with
  | [] => ""
  | _ :: rest => joinSep '.' ("_" :: rest)

/-- Result of `GetRecord`. -/
inductive ROut where
  | ok (r : Record)
  | err (msg : String)
  | panicked
  deriving DecidableEq, Repr

/-- The tail of `GetRecord` after a winning answer: exactly one TXT
string is required; it is parsed, and on success the record's headers
are applied to the response. -/
def finishTXT (expand uparse : String → Option String) (c : Config)
    (txts : List String) (eff : List Effect) : ROut × List Effect :=
  if txts.length ≠ 1 then (.err "could not parse TXT record", eff)
  else
    match ParseRecord expand uparse c (txts.headD "") with
    | (.ok rec, peff) =>
      (.ok rec, eff ++ peff ++ rec.Headers.map fun kv => Effect.setHeader kv.1 kv.2)
    | (.err e, peff) => (.err ("could not parse record: " ++ e), eff ++ peff)
    | (.panicked, peff) => (.panicked, eff ++ peff)

/-- The broad-wildcard stage of `GetRecord`: replace the leftmost label
by `_` and query; an error here is terminal. -/
def broadStage (lookup : String → Option (List String))
    (expand uparse : String → Option String) (c : Config) (host : String)
    (eff : List Effect) : ROut × List Effect :=
  match query lookup (broadWildcard host) with
  | .qpanic => (.panicked, eff ++ [Effect.dnsQuery (absoluteZone (broadWildcard host))])
  | .qerr e => (.err e, eff ++ [Effect.dnsQuery (absoluteZone (broadWildcard host))])
  | .ok txts => finishTXT expand uparse c txts (eff ++ [Effect.dnsQuery (absoluteZone (broadWildcard host))])

/-- The `err != nil || txts[0] == ""` gate of `GetRecord` applied to a
successful answer: an empty first string still sends resolution to the
broad wildcard (unreachable with this `query`, which rejects empty
answers, but kept faithful to the source). -/
def answerStage (lookup : String → Option (List String))
    (expand uparse : String → Option String) (c : Config) (host : String)
    (txts : List String) (eff : List Effect) : ROut × List Effect :=
  if txts.headD "" = "" then broadStage lookup expand uparse c host eff
  else finishTXT expand uparse c txts eff

/-- `GetRecord` (record.go): apex query, then — only when the initial
query failed and no record is in the request context — the apex
wildcard `_.<host>`, then the broad wildcard; a broad-wildcard failure
is returned. -/
def GetRecord (lookup : String → Option (List String))
    (expand uparse : String → Option String) (c : Config)
    (host : String) (recordsInCtx : Bool) : ROut × List Effect :=
  match query lookup host with
  | .qpanic => (.panicked, [Effect.dnsQuery (absoluteZone host)])
  | .ok txts => answerStage lookup expand uparse c host txts [Effect.dnsQuery (absoluteZone host)]
  | .qerr _ =>
    if ¬ recordsInCtx then
      match query lookup ("_." ++ host) with
      | .qpanic =>
        (.panicked,
          [Effect.dnsQuery (absoluteZone host), Effect.dnsQuery (absoluteZone ("_." ++ host))])
      | .ok txts =>
        answerStage lookup expand uparse c host txts
          [Effect.dnsQuery (absoluteZone host), Effect.dnsQuery (absoluteZone ("_." ++ host))]
      | .qerr _ =>
        broadStage lookup expand uparse c host
          [Effect.dnsQuery (absoluteZone host), Effect.dnsQuery (absoluteZone ("_." ++ host))]
    else broadStage lookup expand uparse c host [Effect.dnsQuery (absoluteZone host)]

/-! ### Upstream chain resolver (`UpstreamRecord`, record.go)

The recursive `GetRecord` call is the oracle `resolve`.  Alongside the
result we return the list of zones actually consulted, in order. -/

/-- `UpstreamRecord`: try each `use=` zone in declaration order, return
the first that resolves, an error when all fail. -/
def UpstreamRecord (resolve : String → Except String Record) :
    List String → Except String (Record × String) × List String
  | [] => (.error "Couldn't find any records from upstream", [])
  | z :: zs =>
    match resolve z with
    | .error _ =>
      let (res, cs) := UpstreamRecord resolve zs
      (res, z :: cs)
    | .ok r => (.ok (r, z), [z])

/-! ### Redirect dispatcher (`Redirect`, dispatcher source)

The dispatcher's collaborators — the zone resolver it calls, the
path-type re-resolution (`zoneFromPath` + `getFinalRecord`), and the
proxy / dockerv2 / gometa / gomods handlers — are oracles in
`Handlers`.  The request is the data the dispatcher reads from
`*http.Request`: host, path, `User-Agent` header and the `go-get`
query parameter. -/

/-- The request data consumed by `Redirect`. -/
structure ReqInfo where
  host : String
  path : String
  userAgent : String := ""
  goGet : String := ""
  deriving DecidableEq, Repr

/-- Oracles for the dispatcher's collaborators.  `getRecord` and
`pathResolve` also report the effects (DNS queries, parser fallbacks,
header writes) their execution produced. -/
structure Handlers where
  getRecord : String → Except String Record × List Effect
  pathResolve : Record → (Record × Option String) × List Effect
  proxyRequest : Record → Option String
  redirectDockerv2 : Record → Option String
  gometa : Record → String → String → Option String
  gomods : String → Option String
  expand : String → Option String

/-- `getBaseTarget` (record.go / dispatcher source): expand
placeholders in `To` when it contains `{` or `}`. -/
def getBaseTarget (expand : String → Option String) (rec : Record) :
    Except String (String × Int) :=
  if rec.To.data.any (fun ch => ch == '{' || ch == '}') then
    match expand rec.To with
    | none => .error "could not parse placeholders"
    | some tgt => .ok (tgt, rec.Code)
  else .ok (rec.To, rec.Code)

/-- `isIP` (dispatcher source): more than two `:`-separated pieces, or
a last dot-label that `strconv.Atoi` accepts. -/
def isIP (host : String) : Bool :=
  if (goSplit host ':').length > 2 then true
  else
    let hostSlice := goSplit host '.'
    (goAtoi (hostSlice.getLastD "")).isSome

/-- The redirect-emission effects shared by the `host` and path-root
branches: `Cache-Control` on a 301, the `Status-Code` echo header, and
the redirect write. -/
def redirEff (target : String) (code : Int) : List Effect :=
  (if code = statusMovedPermanently then
    [Effect.addHeader "Cache-Control" ("max-age=" ++ toString status301CacheAge)]
  else []) ++
    [Effect.addHeader "Status-Code" (toString code), Effect.httpRedirect target code]

/-- The `proxy` / `dockerv2` / `host` / `gometa` / `gomods` /
unsupported chain of `Redirect`, applied to the record in force after
the path branch. -/
def typeDispatch (h : Handlers) (req : ReqInfo) (rec : Record) :
    Option String × List Effect :=
  if rec.«Type» = "proxy" then
    match h.proxyRequest rec with
    | some _ => (none, [.fallbackCall "to" rec.Code])
    | none => (none, [])
  else if rec.«Type» = "dockerv2" then
    if ¬ goContains req.userAgent "Docker-Client" then (none, [.fallbackCall "to" rec.Code])
    else
      match h.redirectDockerv2 rec with
      | some _ => (none, [.fallbackCall "to" rec.Code])
      | none => (none, [])
  else if rec.«Type» = "host" then
    match getBaseTarget h.expand rec with
    | .error _ => (none, [.fallbackCall "to" 0])
    | .ok (tgt, code) => (none, redirEff tgt code)
  else if rec.«Type» = "gometa" then
    if req.goGet ≠ "1" then (none, [.fallbackCall "website" statusFound])
    else (h.gometa rec req.host req.path, [])
  else if rec.«Type» = "gomods" then (h.gomods req.path, [])
  else (some ("record type " ++ rec.«Type» ++ " unsupported"), [])

/-- `Redirect` after a successful resolution: the enabled-types guard,
the `re=`/`from=` exclusivity guard, the `path` branch (which may
replace the record via re-resolution), then the type dispatch. -/
def afterResolve (h : Handlers) (req : ReqInfo) (c : Config) (rec : Record) :
    Option String × List Effect :=
  if ¬ contains c.Enable rec.«Type» then (some "option disabled", [])
  else if rec.Re ≠ "" ∧ rec.From ≠ "" then (none, [.fallbackCall "to" rec.Code])
  else if rec.«Type» = "path" ∧ req.path = "/" then
    if rec.Root = "" then (none, [.fallbackCall "to" rec.Code])
    else (none, redirEff rec.Root rec.Code)
  else if rec.«Type» = "path" ∧ req.path ≠ "" then
    match h.pathResolve rec with
    | ((rec2, some _), eff) => (none, eff ++ [.fallbackCall "to" rec2.Code])
    | ((rec2, none), eff) =>
      let (out, eff') := typeDispatch h req rec2
      (out, eff ++ eff')
  else typeDispatch h req rec

/-- `Redirect` (dispatcher source): set the `Server` header, take the
favicon blacklist and literal-IP guards, resolve the record (an error
becomes a global fallback with a nil return), then dispatch. -/
def Redirect (h : Handlers) (req : ReqInfo) (c : Config) :
    Option String × List Effect :=
  let serverHdr := Effect.setHeader "Server" "TXTDirect"
  if req.path = "/favicon.ico" then
    (none, [serverHdr, .setHeader "Content-Type" "", .addHeader "Status-Code" "404",
      .httpRedirect (req.host ++ req.path) 404])
  else if isIP req.host then
    (none, [serverHdr, .fallbackCall "global" statusMovedPermanently])
  else
    match h.getRecord req.host with
    | (.error _, eff) => (none, serverHdr :: (eff ++ [.fallbackCall "global" statusFound]))
    | (.ok rec, eff) =>
      let (out, eff') := afterResolve h req c rec
      (out, serverHdr :: (eff ++ eff'))

/-- Adapter composing `GetRecord` into the dispatcher's resolver
oracle.  A panic would abort the request before `Redirect` could
continue; no instantiation in this development reaches that arm. -/
def resolverOf (lookup : String → Option (List String))
    (expand uparse : String → Option String) (c : Config) (recordsInCtx : Bool)
    (host : String) : Except String Record × List Effect :=
  match GetRecord lookup expand uparse c host recordsInCtx with
  | (.ok r, eff) => (.ok r, eff)
  | (.err e, eff) => (.error e, eff)
  | (.panicked, eff) => (.error "runtime panic", eff)

/-! ### Concrete oracle instances used by the closed runs -/

/-- Identity oracle: the placeholder expander leaves a template-free
string unchanged, and `url.Parse` + `URL.String` leaves an
already-normalised URI (or plain path-free string) unchanged.  Used to
instantiate the external oracles on concrete inputs where those
contracts apply. -/
def idO : String → Option String := fun s => some s

/-- Concrete `url.Parse` oracle exhibiting a parse failure:
`net/url.Parse` rejects any URL containing an ASCII control byte
(returning `net/url: invalid control character in URL`), and otherwise
these concrete inputs are left unchanged. -/
def ctlUParse (s : String) : Option String :=
  if s.data.any (fun ch => ch.toNat < 32 ∨ ch.toNat = 127) then none else some s

/-- A DNS oracle for which every lookup fails. -/
def noLookup : String → Option (List String) := fun _ => none

/-- A 254-character value, used to build a `to=` segment whose raw
length exceeds 255 bytes while its value stays within the bound. -/
def a254 : String := ⟨List.replicate 254 'a'⟩

/-- DNS answers for the host-without-to end-to-end run: the apex zone
of `example.com` carries `type=host;code=301` and nothing else
resolves. -/
def hostNoToLookup : String → Option (List String) := fun z =>
  if z = "_redirect.example.com." then some ["type=host;code=301"] else none

/-- A handler bundle whose collaborators are inert: only the resolver
varies between the closed runs below. -/
def mkHandlers (res : String → Except String Record × List Effect) : Handlers :=
  { getRecord := res
    pathResolve := fun r => ((r, none), [])
    proxyRequest := fun _ => none
    redirectDockerv2 := fun _ => none
    gometa := fun _ _ _ => none
    gomods := fun _ => none
    expand := idO }

/-- Handlers for the gomods-failure run: the resolver yields a
`gomods`-typed record and the gomods collaborator fails. -/
def gomodsFailHandlers : Handlers :=
  { mkHandlers (fun _ => (.ok { «Type» := "gomods" }, [])) with
      gomods := fun _ => some "gomods failed" }

/-- Handlers whose resolver is the embedded `GetRecord` over the
all-failing DNS oracle. -/
def failDNSHandlers : Handlers :=
  mkHandlers (resolverOf noLookup idO idO { Enable := ["host"] } false)

/-- Handlers whose resolver is the embedded `GetRecord` over
`hostNoToLookup`. -/
def hostNoToHandlers : Handlers :=
  mkHandlers (resolverOf hostNoToLookup idO idO { Enable := ["host"] } false)

/-! ### General lemmas about the embedding -/

theorem string_data_append (s t : String) : (s ++ t).data = s.data ++ t.data := by
  cases s; cases t; rfl

/-- C10: a header segment with no `=` makes `ParseRecord` index the
missing value component of the split — a Go runtime panic (index out
of range on `header[1]`), not a returned record or error.  Evaluated
at the failing input `>Name`. -/
theorem C10_header_without_eq_panics :
    ParseRecord idO idO { Enable := ["host"] } ">Name" = (.panicked, []) := by
  decide

/-- C2 (counterexample): a recognized `to=` segment whose raw length
(key included) is 257 bytes — over the claimed 255 bound — parses
without any error: the length check only sees the 254-byte value. -/
theorem C2_raw_over_255_accepted :
    ("to=" ++ a254).utf8ByteSize = 257 ∧
    ParseRecord idO idO { Enable := ["host"] } ("v=txtv0;to=" ++ a254 ++ ";type=host") =
      (.ok { Version := "txtv0", To := a254, «Type» := "host", Code := 302 }, []) := by
  constructor
  · decide
  · decide

/-- C2 (amended): the 255-byte bound on a `to=` segment is enforced on
the segment's value after the `to=` key is stripped (and before
placeholder expansion): the segment is accepted whenever the value is
within 255 bytes — regardless of the raw segment length — and rejected
exactly when the value alone exceeds 255 bytes. -/
theorem C2_bound_checks_stripped_value (expand uparse : String → Option String)
    (r : Record) (v w u : String) (he : expand v = some w) (hu : uparse w = some u) :
    (v.utf8ByteSize ≤ 255 →
      parseStep expand uparse r ("to=" ++ v) = .cont { r with To := u } []) ∧
    (v.utf8ByteSize > 255 →
      parseStep expand uparse r ("to=" ++ v) =
        .stop (.err "TXT record cannot exceed the maximum of 255 characters") []) := by
  have h1 : "to=".data = ['t', 'o', '='] := rfl
  unfold parseStep caseTo lenCheck
  simp only [goHasPref, string_data_append, h1, isPrefOf, goDrop]
  norm_num
  constructor <;> intro hlen
  · simp [he, hu, isPrefOf, show (⟨v.data⟩ : String) = v from rfl, Nat.not_lt.mpr hlen]
    simpa [String.utf8ByteSize] using hlen
  · simp [he, hu, isPrefOf, show (⟨v.data⟩ : String) = v from rfl, hlen]
    simpa [String.utf8ByteSize] using hlen

/-- C2 (witness): the amended bound behaviour at the concrete 254-byte
value `a254` and identity oracles. -/
theorem C2_bound_checks_stripped_value_witness :
    parseStep idO idO {} ("to=" ++ a254) = .cont { To := a254 } [] :=
  (C2_bound_checks_stripped_value idO idO {} a254 a254 a254 rfl rfl).1 (by decide)

/-- C4 (counterexample): a `root=` value rejected by `url.Parse` (it
contains a control byte) triggers the global fallback as a side effect
but `ParseRecord` succeeds with no error — the claimed parse failure
does not happen; the field is simply stored empty. -/
theorem C4_invalid_uri_no_error :
    ctlUParse "bad\nuri" = none ∧
    ParseRecord idO ctlUParse { Enable := ["host"] }
        "root=bad\nuri;to=https://e.com/;type=host" =
      (.ok { Root := "", To := "https://e.com/", «Type» := "host", Code := 302 },
        [.fallbackCall "global" 301]) := by
  constructor
  · decide
  · decide

/-- C4 (amended): a `root=` or `to=` value that the placeholder
expander accepts but `url.Parse` rejects makes the parser invoke the
global Fallback Policy (status 301) as a side effect and store the
field as the empty string, and the segment loop continues without an
error. -/
theorem C4_invalid_uri_falls_back_and_continues
    (expand uparse : String → Option String) (r : Record) (v w : String)
    (he : expand v = some w) (hu : uparse w = none) (hlen : v.utf8ByteSize ≤ 255) :
    parseStep expand uparse r ("root=" ++ v) =
      .cont { r with Root := "" } [.fallbackCall "global" statusMovedPermanently] ∧
    parseStep expand uparse r ("to=" ++ v) =
      .cont { r with To := "" } [.fallbackCall "global" statusMovedPermanently] := by
  have h1 : "root=".data = ['r', 'o', 'o', 't', '='] := rfl
  have h2 : "to=".data = ['t', 'o', '='] := rfl
  unfold parseStep caseRoot caseTo lenCheck
  simp only [goHasPref, string_data_append, h1, h2, isPrefOf, goDrop]
  constructor
  · simp [he, hu, isPrefOf, show (⟨v.data⟩ : String) = v from rfl]
    simpa [String.utf8ByteSize] using hlen
  · simp [he, hu, isPrefOf, show (⟨v.data⟩ : String) = v from rfl]
    simpa [String.utf8ByteSize] using hlen

/-- C4 (witness): the amended fallback-and-continue behaviour at the
concrete control-byte value. -/
theorem C4_invalid_uri_falls_back_and_continues_witness :
    parseStep idO ctlUParse {} ("root=" ++ "bad\nuri") =
      .cont { Root := "" } [.fallbackCall "global" statusMovedPermanently] :=
  (C4_invalid_uri_falls_back_and_continues idO ctlUParse {} "bad\nuri" "bad\nuri"
    rfl (by decide) (by decide)).1

set_option maxHeartbeats 1000000 in
/-- Each successful loop step leaves `Version` unchanged or sets it to
the literal `txtv0`. -/
theorem parseStep_cont_version (expand uparse : String → Option String) (r : Record)
    (l : String) (r' : Record) (eff : List Effect)
    (h : parseStep expand uparse r l = .cont r' eff) :
    r'.Version = r.Version ∨ r'.Version = "txtv0" := by
  unfold parseStep at h
  by_cases h1 : goHasPref l "code=" = true
  · rw [if_pos h1] at h
    unfold caseCode lenCheck at h
    repeat' split at h
    all_goals first
      | exact StepRes.noConfusion h
      | (obtain ⟨rfl, rfl⟩ := StepRes.cont.inj h; simp_all)
  rw [if_neg h1] at h
  by_cases h2 : goHasPref l "from=" = true
  · rw [if_pos h2] at h
    unfold caseFrom lenCheck at h
    repeat' split at h
    all_goals first
      | exact StepRes.noConfusion h
      | (obtain ⟨rfl, rfl⟩ := StepRes.cont.inj h; simp_all)
  rw [if_neg h2] at h
  by_cases h3 : goHasPref l "re=" = true
  · rw [if_pos h3] at h
    unfold caseRe lenCheck at h
    repeat' split at h
    all_goals first
      | exact StepRes.noConfusion h
      | (obtain ⟨rfl, rfl⟩ := StepRes.cont.inj h; simp_all)
  rw [if_neg h3] at h
  by_cases h4 : goHasPref l "ref=" = true
  · rw [if_pos h4] at h
    unfold caseRef lenCheck at h
    repeat' split at h
    all_goals first
      | exact StepRes.noConfusion h
      | (obtain ⟨rfl, rfl⟩ := StepRes.cont.inj h; simp_all)
  rw [if_neg h4] at h
  by_cases h5 : goHasPref l "root=" = true
  · rw [if_pos h5] at h
    unfold caseRoot lenCheck at h
    repeat' split at h
    all_goals first
      | exact StepRes.noConfusion h
      | (obtain ⟨rfl, rfl⟩ := StepRes.cont.inj h; simp_all)
  rw [if_neg h5] at h
  by_cases h6 : goHasPref l "to=" = true
  · rw [if_pos h6] at h
    unfold caseTo lenCheck at h
    repeat' split at h
    all_goals first
      | exact StepRes.noConfusion h
      | (obtain ⟨rfl, rfl⟩ := StepRes.cont.inj h; simp_all)
  rw [if_neg h6] at h
  by_cases h7 : goHasPref l "type=" = true
  · rw [if_pos h7] at h
    unfold caseType lenCheck at h
    repeat' split at h
    all_goals first
      | exact StepRes.noConfusion h
      | (obtain ⟨rfl, rfl⟩ := StepRes.cont.inj h; simp_all)
  rw [if_neg h7] at h
  by_cases h8 : goHasPref l "use=" = true
  · rw [if_pos h8] at h
    unfold caseUse lenCheck at h
    repeat' split at h
    all_goals first
      | exact StepRes.noConfusion h
      | (obtain ⟨rfl, rfl⟩ := StepRes.cont.inj h; simp_all)
  rw [if_neg h8] at h
  by_cases h9 : goHasPref l "v=" = true
  · rw [if_pos h9] at h
    unfold caseV lenCheck at h
    repeat' split at h
    all_goals first
      | exact StepRes.noConfusion h
      | (obtain ⟨rfl, rfl⟩ := StepRes.cont.inj h; simp_all)
  rw [if_neg h9] at h
  by_cases h10 : goHasPref l "vcs=" = true
  · rw [if_pos h10] at h
    unfold caseVcs lenCheck at h
    repeat' split at h
    all_goals first
      | exact StepRes.noConfusion h
      | (obtain ⟨rfl, rfl⟩ := StepRes.cont.inj h; simp_all)
  rw [if_neg h10] at h
  by_cases h11 : goHasPref l "website=" = true
  · rw [if_pos h11] at h
    unfold caseWebsite lenCheck at h
    repeat' split at h
    all_goals first
      | exact StepRes.noConfusion h
      | (obtain ⟨rfl, rfl⟩ := StepRes.cont.inj h; simp_all)
  rw [if_neg h11] at h
  by_cases h12 : goHasPref l ">" = true
  · rw [if_pos h12] at h
    unfold caseHeader lenCheck at h
    repeat' split at h
    all_goals first
      | exact StepRes.noConfusion h
      | (obtain ⟨rfl, rfl⟩ := StepRes.cont.inj h; simp_all)
  rw [if_neg h12] at h
  unfold caseDefault at h
  repeat' split at h
  all_goals first
    | exact StepRes.noConfusion h
    | (obtain ⟨rfl, rfl⟩ := StepRes.cont.inj h; simp_all)

set_option maxHeartbeats 1000000 in
/-- The segment loop never stops with a success outcome: a stop is an
error or a panic. -/
theorem parseStep_stop_not_ok (expand uparse : String → Option String) (r : Record)
    (l : String) (out : ParseOut) (eff : List Effect)
    (h : parseStep expand uparse r l = .stop out eff) :
    ∀ x, out ≠ .ok x := by
  intro x
  unfold parseStep at h
  by_cases h1 : goHasPref l "code=" = true
  · rw [if_pos h1] at h
    unfold caseCode lenCheck at h
    repeat' split at h
    all_goals first
      | exact StepRes.noConfusion h
      | (obtain ⟨rfl, rfl⟩ := StepRes.stop.inj h; simp_all)
  rw [if_neg h1] at h
  by_cases h2 : goHasPref l "from=" = true
  · rw [if_pos h2] at h
    unfold caseFrom lenCheck at h
    repeat' split at h
    all_goals first
      | exact StepRes.noConfusion h
      | (obtain ⟨rfl, rfl⟩ := StepRes.stop.inj h; simp_all)
  rw [if_neg h2] at h
  by_cases h3 : goHasPref l "re=" = true
  · rw [if_pos h3] at h
    unfold caseRe lenCheck at h
    repeat' split at h
    all_goals first
      | exact StepRes.noConfusion h
      | (obtain ⟨rfl, rfl⟩ := StepRes.stop.inj h; simp_all)
  rw [if_neg h3] at h
  by_cases h4 : goHasPref l "ref=" = true
  · rw [if_pos h4] at h
    unfold caseRef lenCheck at h
    repeat' split at h
    all_goals first
      | exact StepRes.noConfusion h
      | (obtain ⟨rfl, rfl⟩ := StepRes.stop.inj h; simp_all)
  rw [if_neg h4] at h
  by_cases h5 : goHasPref l "root=" = true
  · rw [if_pos h5] at h
    unfold caseRoot lenCheck at h
    repeat' split at h
    all_goals first
      | exact StepRes.noConfusion h
      | (obtain ⟨rfl, rfl⟩ := StepRes.stop.inj h; simp_all)
  rw [if_neg h5] at h
  by_cases h6 : goHasPref l "to=" = true
  · rw [if_pos h6] at h
    unfold caseTo lenCheck at h
    repeat' split at h
    all_goals first
      | exact StepRes.noConfusion h
      | (obtain ⟨rfl, rfl⟩ := StepRes.stop.inj h; simp_all)
  rw [if_neg h6] at h
  by_cases h7 : goHasPref l "type=" = true
  · rw [if_pos h7] at h
    unfold caseType lenCheck at h
    repeat' split at h
    all_goals first
      | exact StepRes.noConfusion h
      | (obtain ⟨rfl, rfl⟩ := StepRes.stop.inj h; simp_all)
  rw [if_neg h7] at h
  by_cases h8 : goHasPref l "use=" = true
  · rw [if_pos h8] at h
    unfold caseUse lenCheck at h
    repeat' split at h
    all_goals first
      | exact StepRes.noConfusion h
      | (obtain ⟨rfl, rfl⟩ := StepRes.stop.inj h; simp_all)
  rw [if_neg h8] at h
  by_cases h9 : goHasPref l "v=" = true
  · rw [if_pos h9] at h
    unfold caseV lenCheck at h
    repeat' split at h
    all_goals first
      | exact StepRes.noConfusion h
      | (obtain ⟨rfl, rfl⟩ := StepRes.stop.inj h; simp_all)
  rw [if_neg h9] at h
  by_cases h10 : goHasPref l "vcs=" = true
  · rw [if_pos h10] at h
    unfold caseVcs lenCheck at h
    repeat' split at h
    all_goals first
      | exact StepRes.noConfusion h
      | (obtain ⟨rfl, rfl⟩ := StepRes.stop.inj h; simp_all)
  rw [if_neg h10] at h
  by_cases h11 : goHasPref l "website=" = true
  · rw [if_pos h11] at h
    unfold caseWebsite lenCheck at h
    repeat' split at h
    all_goals first
      | exact StepRes.noConfusion h
      | (obtain ⟨rfl, rfl⟩ := StepRes.stop.inj h; simp_all)
  rw [if_neg h11] at h
  by_cases h12 : goHasPref l ">" = true
  · rw [if_pos h12] at h
    unfold caseHeader lenCheck at h
    repeat' split at h
    all_goals first
      | exact StepRes.noConfusion h
      | (obtain ⟨rfl, rfl⟩ := StepRes.stop.inj h; simp_all)
  rw [if_neg h12] at h
  unfold caseDefault at h
  repeat' split at h
  all_goals first
    | exact StepRes.noConfusion h
    | (obtain ⟨rfl, rfl⟩ := StepRes.stop.inj h; simp_all)

/-- The `Version` invariant propagated along the whole segment loop. -/
theorem parseSegs_version (expand uparse : String → Option String)
    (ls : List String) : ∀ (r r' : Record) (eff : List Effect),
    (r.Version = "" ∨ r.Version = "txtv0") →
    parseSegs expand uparse r ls = (.ok r', eff) →
    r'.Version = "" ∨ r'.Version = "txtv0" := by
  induction ls with
  | nil =>
    intro r r' eff hr h
    simp only [parseSegs, Prod.mk.injEq, ParseOut.ok.injEq] at h
    exact h.1 ▸ hr
  | cons l ls ih =>
    intro r r' eff hr h
    simp only [parseSegs] at h
    rcases hs : parseStep expand uparse r l with ⟨r0, e0⟩ | ⟨out, e0⟩
    · rw [hs] at h
      simp only [Prod.mk.injEq] at h
      rcases hrec : parseSegs expand uparse r0 ls with ⟨out1, eff1⟩
      rw [hrec] at h
      simp only at h
      obtain ⟨h1, -⟩ := h
      subst h1
      rcases parseStep_cont_version expand uparse r l r0 e0 hs with hv | hv
      · exact ih r0 r' eff1 (by rw [hv]; exact hr) hrec
      · exact ih r0 r' eff1 (Or.inr hv) hrec
    · rw [hs] at h
      simp only [Prod.mk.injEq] at h
      exact absurd h.1 (parseStep_stop_not_ok expand uparse r l out e0 hs r')

/-- C8 (counterexample): `type=gomods` (no `v=` directive) is accepted
by `ParseRecord` with `Version = ""`, which is not the supported
literal `txtv0` — an accepted record need not carry the supported
version. -/
theorem C8_versionless_record_accepted :
    ParseRecord idO idO { Enable := ["gomods"] } "type=gomods" =
      (.ok { «Type» := "gomods", Code := 302 }, []) ∧
    ({ «Type» := "gomods", Code := 302 } : Record).Version ≠ "txtv0" := by
  constructor
  · decide
  · decide

/-- C8 (amended): an accepted record's `Version` is either empty (no
`v=` directive was present) or the literal `txtv0`; and a `v=`
directive carrying any other value stops the parse with an
unhandled-version error. -/
theorem C8_version_empty_or_literal :
    (∀ (expand uparse : String → Option String) (c : Config) (s : String) (r : Record)
        (eff : List Effect), ParseRecord expand uparse c s = (.ok r, eff) →
        r.Version = "" ∨ r.Version = "txtv0") ∧
    (∀ (expand uparse : String → Option String) (r : Record) (x : String), x ≠ "txtv0" →
        parseStep expand uparse r ("v=" ++ x) =
          .stop (.err ("unhandled version " ++ x)) []) := by
  constructor
  · intro expand uparse c s r eff h
    unfold ParseRecord at h
    rcases hp : parseSegs expand uparse {} ((goSplit s ';').map trimSpace) with ⟨out0, eff0⟩
    rw [hp] at h
    cases out0 with
    | ok r0 =>
      simp only at h
      have hv : r0.Version = "" ∨ r0.Version = "txtv0" :=
        parseSegs_version expand uparse _ {} r0 eff0 (Or.inl rfl) hp
      unfold postValidate postEnable postHost at h
      repeat' split at h
      all_goals first
        | (obtain ⟨h1, -⟩ := Prod.mk.inj h
           cases ParseOut.ok.inj h1
           first
             | exact Or.inl rfl
             | exact hv)
        | (exfalso
           exact ParseOut.noConfusion (Prod.mk.inj h).1)
    | err m => simp at h
    | panicked => simp at h
  · intro expand uparse r x hx
    have h1 : "v=".data = ['v', '='] := rfl
    unfold parseStep caseV
    simp only [goHasPref, string_data_append, h1, isPrefOf, goDrop]
    simp [show (⟨x.data⟩ : String) = x from rfl, hx]

/-- C8 (witness): the amended version invariant applied to the
accepted `type=gomods` record. -/
theorem C8_version_empty_or_literal_witness :
    ({ «Type» := "gomods", Code := 302 } : Record).Version = "" ∨
      ({ «Type» := "gomods", Code := 302 } : Record).Version = "txtv0" :=
  C8_version_empty_or_literal.1 idO idO { Enable := ["gomods"] } "type=gomods"
    { «Type» := "gomods", Code := 302 } [] (by decide)

/-- C9: a record whose segment loop produced a non-empty `Use` skips
all Type/Enable validation: the parse result does not depend on the
configuration at all, the type is not defaulted, the host-without-to
fallback is not taken, and no enabled-types error can arise — only the
dockerv2 check and the code default still apply. -/
theorem C9_use_skips_type_enable
    (expand uparse : String → Option String) (c c' : Config) (s : String) (r : Record)
    (eff : List Effect)
    (hp : parseSegs expand uparse {} ((goSplit s ';').map trimSpace) = (.ok r, eff))
    (hu : r.Use ≠ []) :
    ParseRecord expand uparse c s = ParseRecord expand uparse c' s ∧
    ParseRecord expand uparse c s =
      (if r.«Type» = "dockerv2" ∧ r.To = "" then
        (.err "to= field is required in dockerv2 type", eff)
      else (.ok (if r.Code = 0 then { r with Code := statusFound } else r), eff)) := by
  have key : ∀ cf : Config, ParseRecord expand uparse cf s =
      (if r.«Type» = "dockerv2" ∧ r.To = "" then
        (.err "to= field is required in dockerv2 type", eff)
      else (.ok (if r.Code = 0 then { r with Code := statusFound } else r), eff)) := by
    intro cf
    unfold ParseRecord
    rw [hp]
    simp only
    unfold postValidate postEnable
    split
    · rfl
    · have hUse : (if r.Code = 0 then { r with Code := statusFound } else r).Use = r.Use := by
        split <;> rfl
      rw [hUse, if_neg hu]
  exact ⟨(key c).trans (key c').symm, key c⟩

/-- C9 (witness): the Use-gate behaviour on a concrete `use=` record
under two configs enabling different type sets. -/
theorem C9_use_skips_type_enable_witness :
    ParseRecord idO idO { Enable := ["host"] } "v=txtv0;use=_redirect.up.example.com" =
      ParseRecord idO idO { Enable := [] } "v=txtv0;use=_redirect.up.example.com" :=
  (C9_use_skips_type_enable idO idO { Enable := ["host"] } { Enable := [] }
    "v=txtv0;use=_redirect.up.example.com"
    { Version := "txtv0", Use := ["_redirect.up.example.com"] } [] (by decide)
    (by decide)).1

/-- C7: a record whose segment loop yields empty `Use`, a resolved type
of `host` (set explicitly or by defaulting), and no `to=` makes
`ParseRecord` invoke the global Fallback Policy (status 301) and return
the zero record with no error; and in the end-to-end
`type=host;code=301` run the dispatcher issues no redirect and never
adds the permanent-redirect `Cache-Control` header — the only response
effects are the `Server` header, the DNS query and the single global
fallback. -/
theorem C7_host_without_to_falls_back :
    (∀ (expand uparse : String → Option String) (c : Config) (s : String) (r : Record)
        (eff : List Effect),
        parseSegs expand uparse {} ((goSplit s ';').map trimSpace) = (.ok r, eff) →
        r.Use = [] → (r.«Type» = "host" ∨ r.«Type» = "") → r.To = "" →
        ParseRecord expand uparse c s =
          (.ok {}, eff ++ [.fallbackCall "global" statusMovedPermanently])) ∧
    (Redirect hostNoToHandlers { host := "example.com", path := "/" } { Enable := ["host"] } =
      (some "option disabled",
        [.setHeader "Server" "TXTDirect", .dnsQuery "_redirect.example.com.",
          .fallbackCall "global" 301]) ∧
      (Redirect hostNoToHandlers { host := "example.com", path := "/" }
          { Enable := ["host"] }).2.all
        (fun e =>
          match e with
          | .httpRedirect _ _ => false
          | .addHeader "Cache-Control" _ => false
          | _ => true) = true) := by
  constructor
  · intro expand uparse c s r eff hp hU hT hTo
    unfold ParseRecord
    rw [hp]
    simp only
    unfold postValidate postEnable postHost
    have hnd : ¬(r.«Type» = "dockerv2" ∧ r.To = "") := by
      rcases hT with h | h <;> simp [h]
    rw [if_neg hnd]
    have hUse : (if r.Code = 0 then { r with Code := statusFound } else r).Use = r.Use := by
      split <;> rfl
    rw [hUse, if_pos hU]
    rcases hT with hT | hT <;> split <;> simp [hT, hTo]
  · constructor
    · decide
    · decide

/-- C7 (witness): the parser-level fallback at the concrete directive
`type=host;code=301`. -/
theorem C7_host_without_to_falls_back_witness :
    ParseRecord idO idO { Enable := ["host"] } "type=host;code=301" =
      (.ok {}, [] ++ [.fallbackCall "global" statusMovedPermanently]) :=
  C7_host_without_to_falls_back.1 idO idO { Enable := ["host"] } "type=host;code=301"
    { «Type» := "host", Code := 301 } [] (by decide) (by decide) (Or.inl (by decide))
    (by decide)

/-- A successful `query` never returns an empty first string. -/
theorem query_ok_head (lookup : String → Option (List String)) (z t : String)
    (ts : List String) (h : query lookup z = .ok (t :: ts)) : t ≠ "" := by
  unfold query at h
  rcases hL : lookup (absoluteZone z) with _ | ls
  · rw [hL] at h; exact QRes.noConfusion h
  · rw [hL] at h
    rcases ls with _ | ⟨a, l⟩
    · exact QRes.noConfusion h
    · simp only at h
      split at h
      · exact QRes.noConfusion h
      · next hne =>
        injection QRes.ok.inj h with h1 h2
        subst h1
        exact hne

/-- C5: when the apex TXT query for a host fails, `GetRecord` proceeds,
in order, to the apex wildcard (`_.<host>`) — but only when no record
has yet been resolved in this request's context — and then to the broad
wildcard (leftmost label replaced by `_`); a failure of the
broad-wildcard stage is terminal and returned to the caller; a success
at the apex-wildcard stage is consumed without querying the broad
wildcard; and for host `a.b.c` the three absolute zones are
`_redirect.a.b.c.`, `_redirect._.a.b.c.` and `_redirect._.b.c.`. -/
theorem C5_wildcard_chain (lookup : String → Option (List String))
    (expand uparse : String → Option String) (c : Config) (host e1 : String)
    (hq1 : query lookup host = .qerr e1) :
    (∀ e2 e3, query lookup ("_." ++ host) = .qerr e2 →
      query lookup (broadWildcard host) = .qerr e3 →
      GetRecord lookup expand uparse c host false =
        (.err e3,
          [.dnsQuery (absoluteZone host), .dnsQuery (absoluteZone ("_." ++ host)),
            .dnsQuery (absoluteZone (broadWildcard host))])) ∧
    (∀ e3, query lookup (broadWildcard host) = .qerr e3 →
      GetRecord lookup expand uparse c host true =
        (.err e3,
          [.dnsQuery (absoluteZone host), .dnsQuery (absoluteZone (broadWildcard host))])) ∧
    (∀ (t : String) (ts : List String), query lookup ("_." ++ host) = .ok (t :: ts) →
      GetRecord lookup expand uparse c host false =
        finishTXT expand uparse c (t :: ts)
          [.dnsQuery (absoluteZone host), .dnsQuery (absoluteZone ("_." ++ host))]) ∧
    (absoluteZone "a.b.c" = "_redirect.a.b.c." ∧
      absoluteZone ("_." ++ "a.b.c") = "_redirect._.a.b.c." ∧
      broadWildcard "a.b.c" = "_.b.c" ∧
      absoluteZone (broadWildcard "a.b.c") = "_redirect._.b.c.") := by
  refine ⟨?_, ?_, ?_, by decide, by decide, by decide, by decide⟩
  · intro e2 e3 hq2 hq3
    simp only [GetRecord, hq1, hq2, broadStage, hq3]
    simp
  · intro e3 hq3
    simp only [GetRecord, hq1, broadStage, hq3]
    simp
  · intro t ts hq2
    have ht : t ≠ "" := query_ok_head lookup ("_." ++ host) t ts hq2
    simp only [GetRecord, hq1, hq2, answerStage]
    simp [ht]

/-- C5 (witness): the full failing chain over the all-failing DNS
oracle for host `a.b.c`. -/
theorem C5_wildcard_chain_witness :
    GetRecord noLookup idO idO {} "a.b.c" false =
      (.err "could not get TXT record",
        [.dnsQuery "_redirect.a.b.c.", .dnsQuery "_redirect._.a.b.c.",
          .dnsQuery "_redirect._.b.c."]) := by
  have h := (C5_wildcard_chain noLookup idO idO {} "a.b.c" "could not get TXT record"
    (by decide)).1 "could not get TXT record" "could not get TXT record"
    (by decide) (by decide)
  simpa using h

/-- C6: `UpstreamRecord` tries the `use=` zones in declaration order:
the first zone the resolver answers wins, carrying its zone name, and
no zone after it is consulted; if every zone fails, the hard upstream
error is returned after consulting all of them. -/
theorem C6_upstream_first_success (resolve : String → Except String Record) :
    (∀ (zs1 : List String) (z : String) (zs2 : List String) (r : Record),
      (∀ z' ∈ zs1, ∃ e, resolve z' = .error e) → resolve z = .ok r →
      UpstreamRecord resolve (zs1 ++ z :: zs2) = (.ok (r, z), zs1 ++ [z])) ∧
    (∀ zs : List String, (∀ z' ∈ zs, ∃ e, resolve z' = .error e) →
      UpstreamRecord resolve zs = (.error "Couldn\'t find any records from upstream", zs)) := by
  constructor
  · intro zs1
    induction zs1 with
    | nil =>
      intro z zs2 r _ hz
      simp [UpstreamRecord, hz]
    | cons a t ih =>
      intro z zs2 r hfail hz
      obtain ⟨e, he⟩ := hfail a (by simp)
      have hrec := ih z zs2 r (fun z' hm => hfail z' (by simp [hm])) hz
      simp only [List.cons_append, UpstreamRecord, he]
      simp [hrec]
  · intro zs hfail
    induction zs with
    | nil => simp [UpstreamRecord]
    | cons a t ih =>
      obtain ⟨e, he⟩ := hfail a (by simp)
      have hrec := ih (fun z' hm => hfail z' (by simp [hm]))
      simp only [UpstreamRecord, he]
      simp [hrec]

/-- C6 (witness): a three-zone chain where the first zone fails and the
second answers: the third zone is never consulted. -/
theorem C6_upstream_first_success_witness :
    UpstreamRecord
        (fun z => if z = "_redirect.b.example.com" then .ok { «Type» := "host" }
          else .error "no record")
        ["_redirect.a.example.com", "_redirect.b.example.com", "_redirect.c.example.com"] =
      (.ok ({ «Type» := "host" }, "_redirect.b.example.com"),
        ["_redirect.a.example.com", "_redirect.b.example.com"]) := by
  have h := (C6_upstream_first_success
    (fun z => if z = "_redirect.b.example.com" then .ok { «Type» := "host" }
      else .error "no record")).1
    ["_redirect.a.example.com"] "_redirect.b.example.com" ["_redirect.c.example.com"]
    { «Type» := "host" }
    (by intro z' hm; exact ⟨"no record", by simp at hm; simp [hm]⟩) (by simp)
  simpa using h

/-- C1 (counterexample): a failing gomods type handler: its error is
returned to the transport layer and the trace carries no fallback
invocation at all — the dispatcher surfaces the internal error instead
of answering with a fallback. -/
theorem C1_gomods_error_propagates :
    Redirect gomodsFailHandlers { host := "txtdirect.org", path := "/x" }
        { Enable := ["gomods"] } =
      (some "gomods failed", [.setHeader "Server" "TXTDirect"]) := by
  decide

/-- C1 (amended): a Zone Resolver error does make the dispatcher invoke
the Fallback Policy exactly once (global mode, status 302) and return
no error; but a gomods-typed record hands the request to the gomods
handler and returns that handler's result — error included — with no
dispatcher fallback appended. -/
theorem C1_resolver_error_single_fallback (h : Handlers) (req : ReqInfo) (c : Config)
    (hbl : req.path ≠ "/favicon.ico") (hip : isIP req.host = false) :
    (∀ (e : String) (eff : List Effect), h.getRecord req.host = (.error e, eff) →
      Redirect h req c =
        (none,
          .setHeader "Server" "TXTDirect" :: (eff ++ [.fallbackCall "global" statusFound]))) ∧
    (∀ (rec : Record) (eff : List Effect), h.getRecord req.host = (.ok rec, eff) →
      rec.«Type» = "gomods" → contains c.Enable "gomods" = true →
      (rec.Re = "" ∨ rec.From = "") →
      Redirect h req c = (h.gomods req.path, .setHeader "Server" "TXTDirect" :: eff)) := by
  constructor
  · intro e eff hres
    simp only [Redirect, hbl, hip, hres]
    simp
  · intro rec eff hres htype henable hre
    simp only [Redirect, hbl, hip, hres, afterResolve, typeDispatch, htype, henable]
    rcases hre with hre | hre <;> simp [hre]

/-- C1 (witness): the single-fallback behaviour at a concrete host
whose resolution fails. -/
theorem C1_resolver_error_single_fallback_witness :
    Redirect (mkHandlers fun _ => (.error "dns failed", []))
        { host := "txtdirect.org", path := "/" } {} =
      (none,
        .setHeader "Server" "TXTDirect" :: ([] ++ [.fallbackCall "global" statusFound])) :=
  (C1_resolver_error_single_fallback (mkHandlers fun _ => (.error "dns failed", []))
    { host := "txtdirect.org", path := "/" } {} (by decide) (by decide)).1
    "dns failed" [] rfl

/-- C3 (counterexample): `127.0.0.1:8080` — a literal IPv4 address with
a port — is not recognised by `isIP`, so the dispatcher does perform
DNS lookups for it (three of them, over the all-failing oracle) instead
of short-circuiting to the fallback. -/
theorem C3_ipv4_with_port_does_dns :
    isIP "127.0.0.1:8080" = false ∧
    (Redirect failDNSHandlers { host := "127.0.0.1:8080", path := "/" }
        { Enable := ["host"] }).2 =
      [.setHeader "Server" "TXTDirect", .dnsQuery "_redirect.127.0.0.1.",
        .dnsQuery "_redirect._.127.0.0.1.", .dnsQuery "_redirect._.0.0.1.",
        .fallbackCall "global" 302] := by
  constructor
  · decide
  · decide

/-- C3 (amended): for a non-blacklisted path, a host with more than two
`:`-separated pieces (IPv6, with or without port) or whose last
dot-label parses as an integer (IPv4 without port) short-circuits —
independently of every handler, so without any DNS lookup — to the
global Fallback Policy with status 301; sample IPv4, bare-IPv6 and
bracketed-IPv6-with-port hosts are all recognised. -/
theorem C3_ip_host_short_circuits (h : Handlers) (req : ReqInfo) (c : Config)
    (hbl : req.path ≠ "/favicon.ico")
    (hip : (goSplit req.host ':').length > 2 ∨
      (goAtoi ((goSplit req.host '.').getLastD "")).isSome = true) :
    (Redirect h req c =
      (none,
        [.setHeader "Server" "TXTDirect", .fallbackCall "global" statusMovedPermanently])) ∧
    (isIP "192.168.1.1" = true ∧ isIP "FE80::0202:B3FF:FE1E:8329" = true ∧
      isIP "[2001:db8::1]:443" = true) := by
  have hisip : isIP req.host = true := by
    unfold isIP
    rcases hip with h1 | h1
    · rw [if_pos h1]
    · split
      · rfl
      · exact h1
  refine ⟨?_, by decide, by decide, by decide⟩
  simp only [Redirect, hbl, hisip]
  simp

/-- C3 (witness): the short-circuit at the concrete IPv4 host
`192.168.1.1`. -/
theorem C3_ip_host_short_circuits_witness :
    Redirect failDNSHandlers { host := "192.168.1.1", path := "/" } {} =
      (none,
        [.setHeader "Server" "TXTDirect", .fallbackCall "global" statusMovedPermanently]) :=
  (C3_ip_host_short_circuits failDNSHandlers { host := "192.168.1.1", path := "/" } {}
    (by decide) (Or.inr (by decide))).1

end Txtdirect
